import Mathlib

/-!
Shallow embedding of the boiler-errors repository.

The enrichment pipeline lives in src/enrich_boiler_data.py and the
read-only HTTP query layer in src/boiler_api/app.py.  Records are JSON
objects; we model them as a structure over the fields the pipeline reads
and writes, with `Option` marking keys that may be absent from the dict.
Python strings appearing in the truncation logic are modelled as lists of
characters (Python indexes and slices by code point, as `List Char` does).
The external generation call (OpenAI request plus JSON parsing, lines
274-299) is modelled by an oracle outcome `GenOutcome`: `ok` carries the
parsed `overview_data` fields, `fail` carries the exception text of any
raised error (API error, empty response, JSON parse error).  Wall-clock
timestamps (`datetime.utcnow().isoformat()`) are explicit string inputs.
-/

namespace BoilerErrors

/-- One entry of `helpful_resources`, built at lines 252-257 of
src/enrich_boiler_data.py. -/
structure Resource where
  type : String
  title : String
  url : String
  description : String
deriving DecidableEq

/-- The `enrichment_metadata` dict attached to every processed record
(lines 316-322 on success, lines 330-335 on failure); keys present only
on one of the two paths are `Option`. -/
structure EnrichmentMetadata where
  enriched_at : String
  model_used : String
  web_search_enabled : Option Bool
  api_calls : Option Nat
  error : Option String
  success : Bool
deriving DecidableEq

/-- A boiler-fault record: the JSON dict fields the pipeline reads
(`entry.get(...)` at lines 112-115, 159-164) and writes (lines 307-322).
`none` models an absent key. -/
structure Entry where
  maker : Option String
  model : Option String
  error_code : Option String
  error_type : Option String
  possible_cause : Option String
  troubleshooting : Option String
  ai_overview : Option String
  helpful_resources : Option (List Resource)
  enrichment_metadata : Option EnrichmentMetadata
deriving DecidableEq

/-- Outcome of the generation step of `_enrich_entry`: `ok` holds the
parsed `overview_data` values of keys `ai_overview` and `troubleshooting`
(`none` models an absent or null key), `fail` holds `str(e)` of the
exception caught at line 326. -/
inductive GenOutcome where
  | ok (ai_overview : Option String) (troubleshooting : Option String)
  | fail (msg : String)
deriving DecidableEq

/-- Python truthiness of `overview_data.get('troubleshooting')` at line
310: an absent key (or JSON null) and the empty string are falsy. -/
def truthyStr : Option String → Bool
  | none => false
  | some s => !(s == "")

/-- The metadata dict written on the success path of `_enrich_entry`
(lines 316-322). -/
def successMeta (now mdl : String) : EnrichmentMetadata :=
  { enriched_at := now ++ "Z"
    model_used := mdl ++ " + Perplexity Context"
    web_search_enabled := some true
    api_calls := some 3
    error := none
    success := true }

/-- The metadata dict written on the failure path of `_enrich_entry`
(lines 330-335). -/
def failureMeta (now mdl e : String) : EnrichmentMetadata :=
  { enriched_at := now ++ "Z"
    model_used := mdl
    web_search_enabled := none
    api_calls := none
    error := some e
    success := false }

/-- `BoilerDataEnricher._enrich_entry` (lines 265-336) as a function of
the generation-step outcome and of the resource list returned by
`_search_perplexity` (which catches its own errors and returns a list,
possibly empty).  On success the record copy gets `troubleshooting`
overwritten only when the parsed value is truthy (line 310), plus
`ai_overview` defaulted to the empty string (line 314), the resources and
the success metadata.  On any exception the record copy gets only the
failure metadata (lines 329-336); `_search_perplexity` is not reached. -/
def enrichEntry (entry : Entry) (gen : GenOutcome) (resources : List Resource)
    (now mdl : String) : Entry :=
  match gen with
  | .ok aiOv ts =>
      { entry with
        troubleshooting := if truthyStr ts then ts else entry.troubleshooting
        ai_overview := some (aiOv.getD "")
        helpful_resources := some resources
        enrichment_metadata := some (successMeta now mdl) }
  | .fail e =>
      { entry with enrichment_metadata := some (failureMeta now mdl e) }

/-- `_enrich_entry` exposed against a per-attempt sequence of generation
outcomes.  The body of `_enrich_entry` contains no retry loop: the
generation call at lines 274-278 is executed exactly once per record, so
only attempt 0 of the sequence is ever consumed. -/
def enrichEntryAttempts (entry : Entry) (calls : Nat → GenOutcome)
    (resources : List Resource) (now mdl : String) : Entry :=
  enrichEntry entry (calls 0) resources now mdl

/-- The dispatch list built by the loop at lines 369-374 of `enrich_data`:
indexed entries whose index is not in the loaded progress set. -/
def entriesToProcess (faults : List Entry) (processed : List Nat) :
    List (Nat × Entry) :=
  faults.enum.filter (fun p => decide (p.1 ∉ processed))

/-- `BoilerDataEnricher.enrich_data` (lines 338-416) reduced to its
index-to-record mapping: the first component is the slot array at the
final save (line 409; every slot is filled, since indices in the loaded
progress set are pre-filled with the ORIGINAL entry at line 372 and every
dispatched index receives its `_enrich_entry` result at line 392 — slot
contents do not depend on `as_completed` order, each slot being written
exactly once).  The second component is the set of indices persisted via
`_save_progress` (line 395) by the end of the run: the loaded set plus
every dispatched index, membership being what matters. -/
def runEnrichFull (faults : List Entry) (processed : List Nat)
    (gen : Nat → GenOutcome) (res : Nat → List Resource)
    (now mdl : String) : List Entry × List Nat :=
  (faults.enum.map (fun p =>
      if p.1 ∈ processed then p.2
      else enrichEntry p.2 (gen p.1) (res p.1) now mdl),
   processed ++ (List.range faults.length).filter (fun i => decide (i ∉ processed)))

/-- The output document written by `_save_output` (lines 418-432). -/
structure OutputDoc where
  boiler_faults : List Entry
  total_entries : Nat
  enriched_at : String
  model_used : String
  test_mode : Bool
deriving DecidableEq

/-- `BoilerDataEnricher._save_output` (lines 418-432): the document is a
function of the non-empty slots passed in and of the wall-clock instant
`datetime.utcnow()` read inside the function at line 425. -/
def saveOutput (enriched_faults : List Entry) (now mdl : String)
    (testMode : Bool) : OutputDoc :=
  { boiler_faults := enriched_faults
    total_entries := enriched_faults.length
    enriched_at := now ++ "Z"
    model_used := mdl
    test_mode := testMode }

/-- One `RateLimiter.acquire` call (lines 30-50) on exact arithmetic:
refill capped at `max_tokens` (line 36), then either consume one token
(line 40) or sleep out the deficit and leave the bucket at zero
(lines 44-50).  Returns the token count after the call. -/
def acquireTokens (max_tokens refill_rate tokens elapsed : ℚ) : ℚ :=
  let t := min max_tokens (tokens + elapsed * refill_rate)
  if 1 ≤ t then t - 1 else 0

/-- A sequence of `acquire` calls from a fresh limiter, whose bucket
starts full (`self.tokens = max_tokens`, line 26); each list element is
the wall-clock time elapsed before that call. -/
def runAcquires (max_tokens refill_rate : ℚ) (els : List ℚ) : ℚ :=
  els.foldl (fun tk e => acquireTokens max_tokens refill_rate tk e) max_tokens

/-- Python whitespace recognised by `str.split()` (ASCII fragment). -/
def isPySpace (c : Char) : Bool :=
  c = ' ' || c = '\t' || c = '\n' || c = '\r' || c = '\x0b' || c = '\x0c'

/-- Python `' '.join(s.split())` at line 246: split on whitespace runs,
drop empty pieces, rejoin with single spaces. -/
def normalizeWs (cs : List Char) : List Char :=
  List.intercalate [' '] ((cs.splitOnP isPySpace).filter (fun w => !w.isEmpty))

/-- Python `s.rsplit(' ', 1)[0]`: everything before the last space, or
the whole string when it contains no space. -/
def keepBeforeLastSpace : List Char → List Char
  | [] => []
  | c :: cs =>
      if ' ' ∈ cs then c :: keepBeforeLastSpace cs
      else if c = ' ' then [] else c :: cs

/-- The `description` computed from a search-result snippet at lines
244-250 of `_search_perplexity`: whitespace-normalize, and when longer
than 150 characters keep the first 150, drop the trailing partial word
after the last space, and append three dots. -/
def makeDescription (snippet : List Char) : List Char :=
  let d := normalizeWs snippet
  if 150 < d.length then keepBeforeLastSpace (d.take 150) ++ ['.', '.', '.'] else d

/-- Result of a route handler in src/boiler_api/app.py: a JSON record or
an error response with a body and a status code. -/
inductive ApiResult where
  | ok (r : Entry)
  | errorResponse (body : String) (status : Nat)
deriving DecidableEq

/-- The match condition of `get_fault_detail` (lines 104-107 of
src/boiler_api/app.py): `item.get(k) == v` for the three key fields, an
absent key (`None`) never equalling the string path parameter. -/
def matchesKey (r : Entry) (maker mdl ec : String) : Bool :=
  r.maker == some maker && r.model == some mdl && r.error_code == some ec

/-- `get_fault_detail` (lines 96-114 of src/boiler_api/app.py): `next`
over the data returns the first matching item or `None`; `if not fault`
then yields the 404 response (a dict that matches three string-valued
keys is non-empty, hence truthy, so `not fault` holds exactly when no
item matches). -/
def getFaultDetail (data : List Entry) (maker mdl ec : String) : ApiResult :=
  match data.find? (fun r => matchesKey r maker mdl ec) with
  | some fault => .ok fault
  | none => .errorResponse "Fault not found" 404

/-- A sample input record, shaped like the input JSON: none of the
pipeline's output-only fields are present. -/
def sampleEntry : Entry :=
  { maker := some "Vaillant"
    model := some "ecoTEC"
    error_code := some "F28"
    error_type := none
    possible_cause := some "ignition fault"
    troubleshooting := some "original steps"
    ai_overview := none
    helpful_resources := none
    enrichment_metadata := none }

/-- A record sharing its identity key (maker, model, error_code) with
`sampleEntry` but differing in a free-text field. -/
def dupEntry : Entry :=
  { sampleEntry with troubleshooting := some "different steps" }

/-- A 151-character snippet consisting of a single long word. -/
def longSnip : List Char := List.replicate 151 'a'

/-- C1: the code refutes resume idempotence.  With a one-record input and
a progress checkpoint recording index 0 (left by an interrupted run that
had flushed and persisted that index), the restarted run pre-fills slot 0
with the ORIGINAL unenriched entry (line 372) and saves that as the final
output, while an uninterrupted run saves the enriched record: the two
final index-to-record mappings differ.  (The other half of the claim does
hold — a checkpointed index is never dispatched, so the generation call
is not re-invoked for it — but the outputs disagree.) -/
theorem resume_loses_enrichment :
    (runEnrichFull [sampleEntry] [0]
        (fun _ => GenOutcome.ok (some "an overview") (some "new steps"))
        (fun _ => []) "t0" "m0").1 = [sampleEntry] ∧
    (runEnrichFull [sampleEntry] []
        (fun _ => GenOutcome.ok (some "an overview") (some "new steps"))
        (fun _ => []) "t0" "m0").1 =
      [enrichEntry sampleEntry
        (GenOutcome.ok (some "an overview") (some "new steps")) [] "t0" "m0"] ∧
    (runEnrichFull [sampleEntry] [0]
        (fun _ => GenOutcome.ok (some "an overview") (some "new steps"))
        (fun _ => []) "t0" "m0").1 ≠
      (runEnrichFull [sampleEntry] []
        (fun _ => GenOutcome.ok (some "an overview") (some "new steps"))
        (fun _ => []) "t0" "m0").1 := by
  decide

/-- C2: counterexample.  `enrich_data` performs no deduplication before
dispatch: with a fresh progress set, an input whose two records share the
identity key (maker, model, error_code) is dispatched whole — both
duplicates are processed, the processed sequence is as long as the input,
and the processed identity keys are not unique. -/
theorem dedup_counterexample :
    (entriesToProcess [sampleEntry, dupEntry] []).length = 2 ∧
    entriesToProcess [sampleEntry, dupEntry] [] = [(0, sampleEntry), (1, dupEntry)] ∧
    (sampleEntry.maker, sampleEntry.model, sampleEntry.error_code) =
      (dupEntry.maker, dupEntry.model, dupEntry.error_code) ∧
    sampleEntry ≠ dupEntry := by
  decide

/-- C2 amended: the code performs no deduplication.  With an empty
progress checkpoint the sequence dispatched to workers is exactly the
enumerated input, in order, later duplicates included, and its length
equals the input length. -/
theorem no_dedup_dispatch (faults : List Entry) :
    entriesToProcess faults [] = faults.enum ∧
    (entriesToProcess faults []).length = faults.length := by
  have h : entriesToProcess faults [] = faults.enum := by
    unfold entriesToProcess
    rw [List.filter_eq_self]
    intro a _
    simp
  exact ⟨h, by rw [h, List.enum_length]⟩

/-- C3: counterexample.  A generation call whose first attempt raises a
rate-limited failure (HTTP 429) and whose second attempt would succeed is
not retried: `_enrich_entry` consumes only attempt 0 of the outcome
sequence and returns the failure record with success=false, not the
success value that a retry policy with maxRetries at least 3 would return
after one backoff sleep. -/
theorem retry_counterexample :
    (fun n => if n == 0 then GenOutcome.fail "HTTP 429 Too Many Requests"
              else GenOutcome.ok (some "an overview") (some "new steps")) 1 =
      GenOutcome.ok (some "an overview") (some "new steps") ∧
    enrichEntryAttempts sampleEntry
        (fun n => if n == 0 then GenOutcome.fail "HTTP 429 Too Many Requests"
                  else GenOutcome.ok (some "an overview") (some "new steps"))
        [] "t0" "m0" ≠
      enrichEntry sampleEntry
        (GenOutcome.ok (some "an overview") (some "new steps")) [] "t0" "m0" ∧
    (enrichEntryAttempts sampleEntry
        (fun n => if n == 0 then GenOutcome.fail "HTTP 429 Too Many Requests"
                  else GenOutcome.ok (some "an overview") (some "new steps"))
        [] "t0" "m0").enrichment_metadata =
      some (failureMeta "t0" "m0" "HTTP 429 Too Many Requests") := by
  decide

/-- C3 amended: there is no retry policy in `_enrich_entry`.  The
generation step is attempted exactly once per record — the result depends
only on attempt 0 of the outcome sequence — and a failure on that single
attempt, rate-limited or not, immediately yields the failure record with
success=false and the error description recorded, with no backoff. -/
theorem no_retry_single_attempt (entry : Entry) (calls : Nat → GenOutcome)
    (resources : List Resource) (now mdl : String) :
    (∀ calls2 : Nat → GenOutcome, calls2 0 = calls 0 →
       enrichEntryAttempts entry calls2 resources now mdl =
         enrichEntryAttempts entry calls resources now mdl) ∧
    (∀ e, calls 0 = GenOutcome.fail e →
       (enrichEntryAttempts entry calls resources now mdl).enrichment_metadata =
           some (failureMeta now mdl e) ∧
         (failureMeta now mdl e).success = false) := by
  constructor
  · intro calls2 h
    simp only [enrichEntryAttempts, h]
  · intro e h
    simp [enrichEntryAttempts, h, enrichEntry, failureMeta]

/-- C3 amended, at a concrete input: a single rate-limited failure
immediately yields the failure record. -/
theorem no_retry_single_attempt_witness :
    (enrichEntryAttempts sampleEntry (fun _ => GenOutcome.fail "quota hit")
        [] "t0" "m0").enrichment_metadata = some (failureMeta "t0" "m0" "quota hit") ∧
      (failureMeta "t0" "m0" "quota hit").success = false :=
  (no_retry_single_attempt sampleEntry (fun _ => GenOutcome.fail "quota hit")
    [] "t0" "m0").2 "quota hit" rfl

/-- C4: counterexample.  `_save_output` reads `datetime.utcnow()` on
every call (line 425), so two invocations on the same slot state at
different instants produce output documents differing in the
`enriched_at` metadata field. -/
theorem flush_timestamp_counterexample :
    saveOutput [] "2026-01-01T00:00:00" "m0" false ≠
      saveOutput [] "2026-01-01T00:00:01" "m0" false := by
  decide

/-- C4 amended: flushing the same slot state twice produces output
documents identical in every field except the `enriched_at` timestamp,
which records each flush's own wall-clock instant; in particular the
records array and the entry count are functions of the slot state
alone. -/
theorem flush_deterministic_except_timestamp (fs : List Entry)
    (t1 t2 mdl : String) (tm : Bool) :
    (saveOutput fs t1 mdl tm).boiler_faults = (saveOutput fs t2 mdl tm).boiler_faults ∧
    (saveOutput fs t1 mdl tm).total_entries = (saveOutput fs t2 mdl tm).total_entries ∧
    (saveOutput fs t1 mdl tm).model_used = (saveOutput fs t2 mdl tm).model_used ∧
    (saveOutput fs t1 mdl tm).test_mode = (saveOutput fs t2 mdl tm).test_mode ∧
    (saveOutput fs t1 mdl tm).boiler_faults = fs ∧
    (saveOutput fs t1 mdl tm).total_entries = fs.length := by
  simp [saveOutput]

/-- C5: a terminally failed generation step leaves the record intact —
original troubleshooting and possible_cause kept, ai_overview and
helpful_resources still absent (input records carry neither) — and
attaches metadata with success=false and the error description; and the
failure does not abort the run: a whole run's final slot array always has
one slot per input record, whatever any record's generation outcome. -/
theorem generation_failure_preserves_entry (entry : Entry) (e : String)
    (resources : List Resource) (now mdl : String)
    (hov : entry.ai_overview = none) (hres : entry.helpful_resources = none) :
    (enrichEntry entry (GenOutcome.fail e) resources now mdl).troubleshooting =
        entry.troubleshooting ∧
    (enrichEntry entry (GenOutcome.fail e) resources now mdl).possible_cause =
        entry.possible_cause ∧
    (enrichEntry entry (GenOutcome.fail e) resources now mdl).ai_overview = none ∧
    (enrichEntry entry (GenOutcome.fail e) resources now mdl).helpful_resources = none ∧
    (enrichEntry entry (GenOutcome.fail e) resources now mdl).enrichment_metadata =
        some (failureMeta now mdl e) ∧
    (failureMeta now mdl e).success = false ∧
    (failureMeta now mdl e).error = some e ∧
    (∀ (faults : List Entry) (processed : List Nat) (gen : Nat → GenOutcome)
        (res : Nat → List Resource),
        ((runEnrichFull faults processed gen res now mdl).1).length = faults.length) := by
  refine ⟨rfl, rfl, hov, hres, rfl, rfl, rfl, ?_⟩
  intro faults processed gen res
  simp [runEnrichFull, List.enum_length]

/-- C5 at a concrete input: the failure metadata attached to a concrete
failed record. -/
theorem generation_failure_preserves_entry_witness :
    (enrichEntry sampleEntry (GenOutcome.fail "parse error") [] "t1" "m1").enrichment_metadata =
      some (failureMeta "t1" "m1" "parse error") :=
  (generation_failure_preserves_entry sampleEntry "parse error" [] "t1" "m1"
    rfl rfl).2.2.2.2.1

/-- C7: whatever the generation outcome of a dispatched record — success
or failure, `_enrich_entry` returns a record either way and the worker
loop then calls `_save_progress` — the record's index is in the persisted
processed set at the end of the run; and an index already in the
checkpoint is never dispatched, so a failed record is not retried on
resume. -/
theorem terminal_outcomes_marked_done (faults : List Entry)
    (processed : List Nat) (gen : Nat → GenOutcome)
    (res : Nat → List Resource) (now mdl : String) (i : Nat)
    (hi : i < faults.length) :
    i ∈ (runEnrichFull faults processed gen res now mdl).2 ∧
    (∀ e : Entry, i ∈ processed → (i, e) ∉ entriesToProcess faults processed) := by
  constructor
  · simp only [runEnrichFull, List.mem_append, List.mem_filter, List.mem_range]
    by_cases h : i ∈ processed
    · exact Or.inl h
    · exact Or.inr ⟨hi, by simpa using h⟩
  · intro e hmem hcontra
    rcases List.mem_filter.mp hcontra with ⟨-, hdec⟩
    simp at hdec
    exact hdec hmem

/-- C7 at a concrete input: a record whose generation fails still has its
index in the persisted set. -/
theorem terminal_outcomes_marked_done_witness :
    0 ∈ (runEnrichFull [sampleEntry] [] (fun _ => GenOutcome.fail "boom")
          (fun _ => []) "t2" "m2").2 :=
  (terminal_outcomes_marked_done [sampleEntry] [] (fun _ => GenOutcome.fail "boom")
    (fun _ => []) "t2" "m2" 0 (by decide)).1

/-- Bounds for one `acquire` call: from a token count within
[0, max_tokens] the call leaves the count within [0, max_tokens]; the
refill itself is capped at max_tokens by the min at line 36. -/
theorem acquireTokens_bounds (max_tokens refill_rate tk el : ℚ)
    (h0 : 0 ≤ tk) (h1 : tk ≤ max_tokens) :
    0 ≤ acquireTokens max_tokens refill_rate tk el ∧
      acquireTokens max_tokens refill_rate tk el ≤ max_tokens := by
  simp only [acquireTokens]
  have hup : min max_tokens (tk + el * refill_rate) ≤ max_tokens := min_le_left _ _
  split_ifs with h
  · constructor <;> linarith
  · constructor <;> linarith

/-- C8: starting from a full bucket (tokens = capacity, line 26), after
any sequence of `acquire` calls the token count lies within
[0, capacity]; in particular no refill ever pushes it past capacity. -/
theorem rate_limiter_tokens_bounded (max_tokens refill_rate : ℚ)
    (els : List ℚ) (hc : 0 ≤ max_tokens) :
    0 ≤ runAcquires max_tokens refill_rate els ∧
      runAcquires max_tokens refill_rate els ≤ max_tokens := by
  unfold runAcquires
  have key : ∀ tk : ℚ, 0 ≤ tk → tk ≤ max_tokens →
      0 ≤ els.foldl (fun tk e => acquireTokens max_tokens refill_rate tk e) tk ∧
      els.foldl (fun tk e => acquireTokens max_tokens refill_rate tk e) tk ≤ max_tokens := by
    induction els with
    | nil => intro tk h0 h1; exact ⟨h0, h1⟩
    | cons e es ih =>
        intro tk h0 h1
        have hb := acquireTokens_bounds max_tokens refill_rate tk e h0 h1
        exact ih _ hb.1 hb.2
  exact key max_tokens hc le_rfl

/-- C8 at the code's own parameters (capacity 3, refill rate 3/s) on a
concrete sequence of elapsed times. -/
theorem rate_limiter_tokens_bounded_witness :
    0 ≤ runAcquires 3 3 [0, 1/3, 2, 0, 0, 0, 5] ∧
      runAcquires 3 3 [0, 1/3, 2, 0, 0, 0, 5] ≤ 3 :=
  rate_limiter_tokens_bounded 3 3 [0, 1/3, 2, 0, 0, 0, 5] (by norm_num)

/-- C9: `get_fault_detail` returns a record of the loaded data matching
the queried (maker, model, error_code) exactly when such a record exists,
and the 404 response with the not-found error body otherwise. -/
theorem get_fault_detail_found_or_404 (data : List Entry) (maker mdl ec : String) :
    ((∃ r ∈ data, matchesKey r maker mdl ec = true) →
       ∃ r, getFaultDetail data maker mdl ec = ApiResult.ok r ∧ r ∈ data ∧
         matchesKey r maker mdl ec = true) ∧
    ((∀ r ∈ data, matchesKey r maker mdl ec = false) →
       getFaultDetail data maker mdl ec = ApiResult.errorResponse "Fault not found" 404) := by
  constructor
  · rintro ⟨r, hr, hm⟩
    cases hfind : data.find? (fun x => matchesKey x maker mdl ec) with
    | none => exact absurd hm (List.find?_eq_none.mp hfind r hr)
    | some f =>
        refine ⟨f, by simp [getFaultDetail, hfind], List.mem_of_find?_eq_some hfind, ?_⟩
        have hp := @List.find?_some _ (fun x => matchesKey x maker mdl ec) f data hfind
        simpa using hp
  · intro hall
    have hnone : data.find? (fun x => matchesKey x maker mdl ec) = none :=
      List.find?_eq_none.mpr (fun x hx => by simp [hall x hx])
    simp [getFaultDetail, hnone]

/-- C9 at a concrete input: querying a key absent from the data yields
the 404 not-found response. -/
theorem get_fault_detail_found_or_404_witness :
    getFaultDetail [sampleEntry] "Baxi" "ecoTEC" "F28" =
      ApiResult.errorResponse "Fault not found" 404 :=
  (get_fault_detail_found_or_404 [sampleEntry] "Baxi" "ecoTEC" "F28").2 (by decide)

/-- C10: when the generation response parses but its troubleshooting
value is absent or empty (falsy at line 310), the enriched record keeps
its original troubleshooting yet still carries the success metadata with
success=true, and ai_overview is defaulted from the parse — possibly to
the empty string. -/
theorem success_true_without_overwrite (entry : Entry) (aiOv ts : Option String)
    (resources : List Resource) (now mdl : String)
    (hts : ts = none ∨ ts = some "") :
    (enrichEntry entry (GenOutcome.ok aiOv ts) resources now mdl).troubleshooting =
        entry.troubleshooting ∧
    (enrichEntry entry (GenOutcome.ok aiOv ts) resources now mdl).enrichment_metadata =
        some (successMeta now mdl) ∧
    (successMeta now mdl).success = true ∧
    (enrichEntry entry (GenOutcome.ok aiOv ts) resources now mdl).ai_overview =
        some (aiOv.getD "") := by
  rcases hts with h | h <;> subst h <;> exact ⟨rfl, rfl, rfl, rfl⟩

/-- C10 at a concrete input: both parsed fields absent still gives
success=true, an untouched troubleshooting and an empty ai_overview. -/
theorem success_true_without_overwrite_witness :
    (enrichEntry sampleEntry (GenOutcome.ok none none) [] "t3" "m3").troubleshooting =
        sampleEntry.troubleshooting ∧
    (enrichEntry sampleEntry (GenOutcome.ok none none) [] "t3" "m3").enrichment_metadata =
        some (successMeta "t3" "m3") ∧
    (successMeta "t3" "m3").success = true ∧
    (enrichEntry sampleEntry (GenOutcome.ok none none) [] "t3" "m3").ai_overview =
        some "" :=
  success_true_without_overwrite sampleEntry none none [] "t3" "m3" (Or.inl rfl)

/-- When the list contains no space, `rsplit` keeps it whole. -/
theorem keepBeforeLastSpace_of_not_mem (cs : List Char) (h : ' ' ∉ cs) :
    keepBeforeLastSpace cs = cs := by
  cases cs with
  | nil => rfl
  | cons c cs =>
      have h1 : ' ' ∉ cs := fun hm => h (List.mem_cons_of_mem c hm)
      have h2 : ¬ c = ' ' := fun hc => h (hc ▸ List.mem_cons_self c cs)
      simp [keepBeforeLastSpace, h1, h2]

/-- When the list contains a space, the kept part followed by one space
is an initial segment of the list: the cut falls exactly on the last
space, hence on a word boundary. -/
theorem keepBeforeLastSpace_take (cs : List Char) (h : ' ' ∈ cs) :
    cs.take ((keepBeforeLastSpace cs).length + 1) =
      keepBeforeLastSpace cs ++ [' '] := by
  induction cs with
  | nil => cases h
  | cons c cs ih =>
      by_cases hm : ' ' ∈ cs
      · simp only [keepBeforeLastSpace, hm, if_true, List.length_cons,
          List.take_succ_cons, List.cons_append]
        rw [ih hm]
      · have hc : c = ' ' := by
          rcases List.mem_cons.mp h with h1 | h1
          · exact h1.symm
          · exact absurd h1 hm
        simp [keepBeforeLastSpace, hm, hc]

/-- The kept part is never longer than the input. -/
theorem keepBeforeLastSpace_length_le (cs : List Char) :
    (keepBeforeLastSpace cs).length ≤ cs.length := by
  induction cs with
  | nil => exact le_rfl
  | cons c cs ih =>
      by_cases hm : ' ' ∈ cs
      · simp only [keepBeforeLastSpace, hm, if_true, List.length_cons]
        omega
      · by_cases hc : c = ' '
        · simp [keepBeforeLastSpace, hm, hc]
        · simp [keepBeforeLastSpace, hm, hc]

set_option maxRecDepth 4000 in
/-- C6: counterexample.  On a 151-character single-word snippet the code
produces the whole 150-character prefix with three dots appended: the cut
is not at a word boundary, since the kept text (the description minus the
dots, which the produced value pins down) is neither the entire
normalized snippet nor followed by a space within it — the 151-character
word was cut in the middle.  (The produced description is also 153
characters long.) -/
theorem truncation_word_boundary_counterexample :
    150 < (normalizeWs longSnip).length ∧
    makeDescription longSnip = List.replicate 150 'a' ++ ['.', '.', '.'] ∧
    (List.replicate 150 'a' : List Char) ≠ normalizeWs longSnip ∧
    (normalizeWs longSnip).take ((List.replicate 150 'a' : List Char).length + 1) ≠
      List.replicate 150 'a' ++ [' '] ∧
    (makeDescription longSnip).length = 153 := by
  decide

/-- C6 amended: the description is the whitespace-normalized snippet
when that is at most 150 characters; otherwise it is the first 150
characters with the trailing partial word after their last space removed
and three dots appended — a word-boundary cut whenever those 150
characters contain a space, but when they contain none the entire
150-character mid-word prefix is kept. -/
theorem truncation_behavior (snippet : List Char) :
    ((normalizeWs snippet).length ≤ 150 →
       makeDescription snippet = normalizeWs snippet) ∧
    (150 < (normalizeWs snippet).length →
       makeDescription snippet =
         keepBeforeLastSpace ((normalizeWs snippet).take 150) ++ ['.', '.', '.'] ∧
       (keepBeforeLastSpace ((normalizeWs snippet).take 150)).length ≤ 150 ∧
       (' ' ∈ (normalizeWs snippet).take 150 →
          (normalizeWs snippet).take
              ((keepBeforeLastSpace ((normalizeWs snippet).take 150)).length + 1) =
            keepBeforeLastSpace ((normalizeWs snippet).take 150) ++ [' ']) ∧
       (' ' ∉ (normalizeWs snippet).take 150 →
          keepBeforeLastSpace ((normalizeWs snippet).take 150) =
            (normalizeWs snippet).take 150)) := by
  constructor
  · intro hle
    simp [makeDescription, Nat.not_lt.mpr hle]
  · intro hgt
    refine ⟨by simp [makeDescription, hgt], ?_, ?_, ?_⟩
    · calc (keepBeforeLastSpace ((normalizeWs snippet).take 150)).length
          ≤ ((normalizeWs snippet).take 150).length :=
            keepBeforeLastSpace_length_le _
        _ ≤ 150 := by simp [List.length_take]
    · intro hsp
      have htk := keepBeforeLastSpace_take _ hsp
      have hlen : (keepBeforeLastSpace ((normalizeWs snippet).take 150)).length + 1 ≤ 150 := by
        have hl := congrArg List.length htk
        simp only [List.length_take, List.length_append, List.length_singleton] at hl
        omega
      rw [List.take_take] at htk
      rw [min_eq_left hlen] at htk
      exact htk
    · intro hnsp
      exact keepBeforeLastSpace_of_not_mem _ hnsp

/-- C6 amended, at a concrete input: a short snippet is only
whitespace-normalized. -/
theorem truncation_behavior_witness :
    makeDescription "  hello   world ".toList = "hello world".toList :=
  (truncation_behavior "  hello   world ".toList).1 (by decide)

end BoilerErrors
